import Mathlib

/-!
Verification of the documentation generator (pkg/documentation/generator/parameters.go)
and the generated step command glue (cmd/pythonBuild_generated.go) of the
jenkins-library excerpt.

The Go code is shallowly embedded: pure string/ slice manipulation becomes Lean
functions over `String` and `List`; the package-level data structures of the
config package become Lean structures; `sort.SliceStable` is modelled by the
stable `List.mergeSort` with the complemented comparator; effectful command
code (the cobra `Run` / `PreRunE` closures) is modelled as trace-producing
functions over explicit oracles for the external collaborators.
-/

/- ### Go standard library models -/

/-- Model of Go `sort.SliceStable less`: a stable sort placing `a` before `b`
whenever `less b a` does not hold.  `List.mergeSort` is a stable sort keeping
the original order of elements `a, b` with `le a b`; taking
`le a b := !(less b a)` gives exactly the `sort.SliceStable` contract. -/
def goSliceStable {α : Type} (less : α → α → Bool) (l : List α) : List α :=
  l.mergeSort (fun a b => !(less b a))

/-- Model of Go `strings.Join l sep`: the head followed by `sep ++ s` for
every later element `s`. -/
def goStringsJoin (sep : String) : List String → String
  | [] => ""
  | a :: rest => a ++ String.join (rest.map (fun s => sep ++ s))

/-- Model of Go `path.Join a b` for the clean inputs occurring here: drop
empty components, otherwise join with a slash. -/
def goPathJoin (a b : String) : String :=
  if a = "" then b else if b = "" then a else a ++ "/" ++ b

/-- Model of Go `filepath.Join a b` on slash-separated paths, as used by
`persist` for the category/name key. -/
def goFilepathJoin (a b : String) : String :=
  goPathJoin a b

/- ### Data model of the config package (external collaborator of the
documentation generator, declared in pkg/config of this repository) -/

/-- Modelled from the spec: `config.Alias` of the configuration package (not
part of this excerpt), an alias name with a deprecation marker. -/
structure Alias where
  Name : String := ""
  Deprecated : Bool := false

/-- Modelled from the spec: one entry of `MandatoryIf` (`config.ParameterDependence`,
not part of this excerpt), a parameter name/value pair under which the owning
parameter becomes mandatory. -/
structure ParameterDependence where
  Name : String := ""
  Value : String := ""

/-- Modelled from the spec: `config.ResourceReference` (not part of this
excerpt), a reference from a parameter to a shared resource. -/
structure ResourceReference where
  Name : String := ""
  Type_ : String := ""
  Param : String := ""
  Default : String := ""
  Aliases : List Alias := []

/-- Go values that appear as `interface\x7b\x7d` defaults / possible values of the
step metadata: strings, booleans, string slices, conditional defaults,
string maps and mixed lists. -/
inductive GoValue where
  | str (s : String)
  | boolean (b : Bool)
  | strList (l : List String)
  | condDefault (key value def_ : String)
  | condDefaults (l : List (String × String × String))
  | strMap (l : List (String × String))
  | anyList (l : List GoValue)

/-- Modelled from the spec: `config.StepParameters` (not part of this excerpt),
the static metadata record of one step parameter. -/
structure StepParameters where
  Name : String := ""
  Description : String := ""
  LongDescription : String := ""
  ResourceRef : List ResourceReference := []
  Scope : List String := []
  Type_ : String := ""
  Mandatory : Bool := false
  MandatoryIf : List ParameterDependence := []
  Secret : Bool := false
  Aliases : List Alias := []
  Default : Option GoValue := none
  PossibleValues : Option (List GoValue) := none
  DeprecationMessage : String := ""

/-- Modelled from the spec: `config.StepSecrets` (not part of this excerpt),
the metadata record of one declared secret. -/
structure StepSecrets where
  Name : String := ""
  Description : String := ""
  Type_ : String := ""
  Aliases : List Alias := []

/-- Modelled from the spec: `config.Container` (not part of this excerpt). -/
structure Container where
  Name : String := ""
  Image : String := ""

/-- Modelled from the spec: `config.StepResources` (not part of this excerpt),
one output resource declaration; each parameter map is a key/value list. -/
structure StepResources where
  Name : String := ""
  Type_ : String := ""
  Parameters : List (List (String × String)) := []

/-- Modelled from the spec: `config.StepOutputs` (not part of this excerpt). -/
structure StepOutputs where
  Resources : List StepResources := []

/-- Modelled from the spec: `config.StepInputs` (not part of this excerpt).
The parameter slice can be Go `nil`, modelled by `none`; an empty but non-nil
slice is `some []`. -/
structure StepInputs where
  Parameters : Option (List StepParameters) := none
  Secrets : List StepSecrets := []

/-- Modelled from the spec: `config.StepSpec` (not part of this excerpt). -/
structure StepSpec where
  Inputs : StepInputs := {}
  Containers : List Container := []
  Outputs : StepOutputs := {}

/-- Modelled from the spec: `config.StepMetadata` (not part of this excerpt). -/
structure StepMetadata where
  Name : String := ""
  Aliases : List Alias := []
  Description : String := ""

/-- Modelled from the spec: `config.StepData` (not part of this excerpt), the
whole static metadata value of one step. -/
structure StepData where
  Metadata : StepMetadata := {}
  Spec : StepSpec := {}

/-- Modelled from the spec: `config.StepParameters.GetReference` (not part of
this excerpt): the first resource reference of the given type, or `none`. -/
def StepParameters.GetReference (p : StepParameters) (refType : String) : Option ResourceReference :=
  p.ResourceRef.find? (fun r => r.Type_ == refType)

/-- Modelled from the spec: the constant `config.RefTypeSystemTrustSecret`
(not part of this excerpt). -/
def RefTypeSystemTrustSecret : String := "systemTrustSecret"

/-- Modelled from the spec: the constant list `config.VaultRootPaths` (not
part of this excerpt); only its elements are interpolated into strings. -/
def VaultRootPaths : List String :=
  ["$(vaultPath)", "$(vaultBasePath)/$(vaultPipelineName)", "$(vaultBasePath)/GROUP-SECRETS"]

/- ### Helpers of the generator package used by parameters.go but declared in
other files of the same package -/

/-- Modelled from the spec: the generator package helper `contains` (not part
of this excerpt), a plain membership test on a string slice. -/
def contains (l : List String) (s : String) : Bool :=
  l.contains s

/-- Modelled from the spec: the generator package helper `ifThenElse` (not
part of this excerpt), choosing between two strings by a condition. -/
def ifThenElse (condition : Bool) (positive negative : String) : String :=
  if condition then positive else negative

/-- Modelled from the spec: the generator package variable `stepParameterNames`
(not part of this excerpt) is the list of names of genuine step parameters; it
is passed explicitly as the `spn` argument of the rendering functions below. -/
def stepParameterNamesNote : Unit := ()

/- ### parameters.go: badges and jenkinsParams -/

def vaultBadge : String := "![Vault](https://img.shields.io/badge/-Vault-lightgrey)"

def jenkinsOnlyBadge : String := "![Jenkins only](https://img.shields.io/badge/-Jenkins%20only-yellowgreen)"

def secretBadge : String := "![Secret](https://img.shields.io/badge/-Secret-yellowgreen)"

def systemTrustBadge : String := "![System Trust](https://img.shields.io/badge/-System%20Trust-lightblue)"

def deprecatedBadge : String := "![deprecated](https://img.shields.io/badge/-deprecated-red)"

def jenkinsParams : List String :=
  ["containerCommand", "containerName", "containerShell", "dockerVolumeBind",
   "dockerWorkspace", "sidecarReadyCommand", "sidecarWorkspace", "stashContent"]

/- ### parameters.go: sortStepParameters -/

/-- The comparator of the `considerMandatory` branch of `sortStepParameters`:
parameters that are mandatory or conditionally mandatory first, inside one
group Go `strings.Compare(name_i, name_j) < 0`, i.e. lexicographic name order. -/
def lessByMandatoryAndName (a b : StepParameters) : Bool :=
  if (a.Mandatory || decide (0 < a.MandatoryIf.length)) == (b.Mandatory || decide (0 < b.MandatoryIf.length)) then
    decide (a.Name < b.Name)
  else if a.Mandatory || decide (0 < a.MandatoryIf.length) then true
  else false

/-- The comparator of the plain branch of `sortStepParameters`:
Go `strings.Compare(name_i, name_j) < 0`. -/
def lessByName (a b : StepParameters) : Bool :=
  decide (a.Name < b.Name)

/-- Replace the parameter slice of a step metadata value, leaving every other
field unchanged. -/
def setStepDataParameters (s : StepData) (ps : Option (List StepParameters)) : StepData :=
  { s with Spec := { s.Spec with Inputs := { s.Spec.Inputs with Parameters := ps } } }

/-- The list-level body of `sortStepParameters`: the stable sort under the
comparator selected by `considerMandatory`. -/
def goSortParams (considerMandatory : Bool) (parameters : List StepParameters) :
    List StepParameters :=
  if considerMandatory then goSliceStable lessByMandatoryAndName parameters
  else goSliceStable lessByName parameters

def sortStepParameters (stepData : StepData) (considerMandatory : Bool) : StepData :=
  match stepData.Spec.Inputs.Parameters with
  | none => stepData
  | some parameters =>
      setStepDataParameters stepData (some (goSortParams considerMandatory parameters))

/-- A parameter is rendered as mandatory when its `Mandatory` field is set or
its `MandatoryIf` list is non-empty (the condition used by the
`considerMandatory` comparator). -/
def isMandatoryOrConditional (p : StepParameters) : Bool :=
  p.Mandatory || decide (0 < p.MandatoryIf.length)

/-- Rank 0 for (conditionally) mandatory parameters, 1 otherwise; the
`considerMandatory` comparator is lexicographic on `(mandRank, Name)`. -/
def mandRank (p : StepParameters) : Nat :=
  if isMandatoryOrConditional p then 0 else 1

/-- The ordering key of `sortStepParameters`: the name, and additionally the
mandatory status when `considerMandatory` is set.  Two parameters compare
equal under the comparator exactly when their keys coincide. -/
def paramSortKey (considerMandatory : Bool) (p : StepParameters) : Bool × String :=
  (considerMandatory && isMandatoryOrConditional p, p.Name)

/- ### parameters.go: mandatory information and overview -/

/-- The rendering of one `MandatoryIf` condition:
Go format string of one condition line. -/
def mandatoryIfCondition (c : ParameterDependence) : String :=
  "- [" ++ "`" ++ c.Name ++ "`](#" ++ c.Name.toLower ++ ")=`" ++ c.Value ++ "`"

def parameterMandatoryInformation (param : StepParameters) (furtherInfo : String) :
    Bool × String × String :=
  let mandatory := param.Mandatory
  let mandatoryInfo := furtherInfo
  let result :=
    if 0 < param.MandatoryIf.length then
      (true,
       (if 0 < mandatoryInfo.length then mandatoryInfo ++ "<br />" else mandatoryInfo) ++
         goStringsJoin "<br />"
           ("mandatory in case of:" :: param.MandatoryIf.map mandatoryIfCondition))
    else (mandatory, mandatoryInfo)
  let mandatoryString := if 0 < result.2.length then "**(yes)**" else "**yes**"
  (result.1, mandatoryString, result.2)

def checkParameterInfo (furtherInfo : String) (stepParam executionEnvironment : Bool) :
    String × Option String :=
  if (stepParam && !executionEnvironment) || (!stepParam && executionEnvironment) then
    (furtherInfo, none)
  else if executionEnvironment then
    ("", some ("step parameter not relevant as execution environment parameter"))
  else
    ("", some ("execution environment parameter not relevant as step parameter"))

/-- The secret information string built inside `parameterFurtherInfo` for a
secret step parameter. -/
def secretParameterInfo (param : StepParameters) : String :=
  let secretInfo :=
    if (param.GetReference ("vaultSecret")).isSome || (param.GetReference ("vaultSecretFile")).isSome then
      if (param.GetReference RefTypeSystemTrustSecret).isSome then
        " " ++ vaultBadge ++ " " ++ systemTrustBadge ++ " " ++ secretBadge ++
          " pass via ENV, Vault, System Trust or Jenkins credentials"
      else
        " " ++ vaultBadge ++ " " ++ secretBadge ++ " pass via ENV, Vault or Jenkins credentials"
    else
      secretBadge ++ " pass via ENV or Jenkins credentials"
  secretInfo ++
    String.join
      ((param.ResourceRef.filter (fun res => res.Type_ == "secret")).map
        (fun res => " ([" ++ "`" ++ res.Name ++ "`](#" ++ res.Name.toLower ++ "))"))

/-- The further-information text of one found step parameter (the body of the
name-matching branch of `parameterFurtherInfo`). -/
def stepParameterInfoText (param : StepParameters) : String :=
  let furtherInfo := if param.DeprecationMessage ≠ "" then deprecatedBadge else ""
  if param.Secret then furtherInfo ++ secretParameterInfo param else furtherInfo

def parameterFurtherInfo (spn : List String) (paramName : String) (stepData : StepData)
    (executionEnvironment : Bool) : String × Option String :=
  if paramName = "verbose" then
    checkParameterInfo ("activates debug output") true executionEnvironment
  else if paramName = "script" then
    checkParameterInfo (jenkinsOnlyBadge ++ " reference to Jenkins main pipeline script")
      true executionEnvironment
  else if !(contains spn paramName) then
    if stepData.Spec.Inputs.Secrets.any
        (fun secret => paramName == secret.Name && secret.Type_ == "jenkins") then
      checkParameterInfo
        (jenkinsOnlyBadge ++
          " id of credentials ([using credentials](https://www.jenkins.io/doc/book/using/using-credentials/))")
        true executionEnvironment
    else if contains jenkinsParams paramName then
      checkParameterInfo jenkinsOnlyBadge false executionEnvironment
    else
      checkParameterInfo ("") false executionEnvironment
  else
    match (stepData.Spec.Inputs.Parameters.getD []).find? (fun p => paramName == p.Name) with
    | some param => checkParameterInfo (stepParameterInfoText param) true executionEnvironment
    | none => checkParameterInfo ("") true executionEnvironment

/-- One row of the overview table, or the empty string when
`parameterFurtherInfo` reports an error for this parameter. -/
def parameterOverviewRow (spn : List String) (stepData : StepData)
    (executionEnvironment : Bool) (param : StepParameters) : String :=
  match parameterFurtherInfo spn param.Name stepData executionEnvironment with
  | (furtherInfo, none) =>
      let minfo := parameterMandatoryInformation param furtherInfo
      "| [" ++ param.Name ++ "](#" ++ param.Name.toLower ++ ") | " ++
        ifThenElse minfo.1 minfo.2.1 ("no") ++ " | " ++ minfo.2.2 ++ " |\n"
  | (_, some _) => ""

def createParameterOverview (spn : List String) (stepData : StepData)
    (executionEnvironment : Bool) : String :=
  "| Name | Mandatory | Additional information |\n" ++
    "| ---- | --------- | ---------------------- |\n" ++
    String.join
      ((stepData.Spec.Inputs.Parameters.getD []).map
        (parameterOverviewRow spn stepData executionEnvironment)) ++
    "\n"

/- ### parameters.go: detail rendering helpers -/

mutual

/-- Model of Go `fmt.Sprintf("%v", v)` / `fmt.Sprint(v)` on the value kinds
occurring as defaults and possible values. -/
def goFormatValue : GoValue → String
  | .str s => s
  | .boolean b => if b then "true" else "false"
  | .strList l => "[" ++ goStringsJoin " " l ++ "]"
  | .condDefault k v d => "\x7b" ++ k ++ " " ++ v ++ " " ++ d ++ "\x7d"
  | .condDefaults l =>
      "[" ++ goStringsJoin " "
        (l.map (fun cd => "\x7b" ++ cd.1 ++ " " ++ cd.2.1 ++ " " ++ cd.2.2 ++ "\x7d")) ++ "]"
  | .strMap l =>
      "map[" ++ goStringsJoin " " (l.map (fun kv => kv.1 ++ ":" ++ kv.2)) ++ "]"
  | .anyList l => "[" ++ goFormatValueList l ++ "]"

def goFormatValueList : List GoValue → String
  | [] => ""
  | [v] => goFormatValue v
  | v :: rest => goFormatValue v ++ " " ++ goFormatValueList rest

end

def formatDefault (param : StepParameters) (spn : List String) : String :=
  match param.Default with
  | none =>
      if contains spn param.Name then "`$PIPER_" ++ param.Name ++ "` (if set)" else ""
  | some v =>
      match v with
      | .condDefaults l =>
          goStringsJoin "<br />"
            (l.map (fun cd =>
              if 0 < cd.1.length && 0 < cd.2.1.length then
                cd.1 ++ "=`" ++ cd.2.1 ++ "`: `" ++ cd.2.2 ++ "`"
              else "`" ++ cd.2.2 ++ "`"))
      | .anyList l =>
          goStringsJoin "<br />"
            (l.map (fun d =>
              match d with
              | .condDefault k vl d2 => k ++ "=`" ++ vl ++ "`: `" ++ d2 ++ "`"
              | other => "- `" ++ goFormatValue other ++ "`"))
      | .strMap l =>
          goStringsJoin "<br />" (l.map (fun kv => "`" ++ kv.1 ++ "`: `" ++ kv.2 ++ "`"))
      | .str s => if s.length = 0 then "`\x27\x27`" else "`" ++ s ++ "`"
      | other => "`" ++ goFormatValue other ++ "`"

def aliasList (aliases : List Alias) : String :=
  match aliases with
  | [] => "-"
  | [alias1] =>
      "`" ++ alias1.Name ++ "`" ++ (if alias1.Deprecated then " (**deprecated**)" else "")
  | _ =>
      goStringsJoin "<br />"
        (aliases.map (fun a =>
          "- `" ++ a.Name ++ "`" ++ (if a.Deprecated then " (**deprecated**)" else "")))

def possibleValueList (possibleValues : List GoValue) : String :=
  if possibleValues.length = 0 then ""
  else goStringsJoin "<br />" (possibleValues.map (fun v => "- `" ++ goFormatValue v ++ "`"))

def scopeDetails (scope : List String) : String :=
  "<ul>" ++
    "<li>" ++ ifThenElse (contains scope ("PARAMETERS")) ("&#9746;") ("&#9744;") ++ " parameter</li>" ++
    "<li>" ++ ifThenElse (contains scope ("GENERAL")) ("&#9746;") ("&#9744;") ++ " general</li>" ++
    "<li>" ++ ifThenElse (contains scope ("STEPS")) ("&#9746;") ("&#9744;") ++ " steps</li>" ++
    "<li>" ++ ifThenElse (contains scope ("STAGES")) ("&#9746;") ("&#9744;") ++ " stages</li>" ++
    "</ul>"

/-- The Jenkins credential id block appended by `resourceReferenceDetails` for
a secret resource reference. -/
def jenkinsCredentialBlock (resource : ResourceReference) : String :=
  "Jenkins credential id:<br />" ++
    String.join
      (resource.Aliases.enum.map (fun ia =>
        (if ia.1 = 0 then "&nbsp;&nbsp;aliases:<br />" else "") ++
          "&nbsp;&nbsp;- `" ++ ia.2.Name ++ "`" ++
          ifThenElse ia.2.Deprecated (" (**Deprecated**)") ("") ++ "<br />")) ++
    "&nbsp;&nbsp;id: [" ++ "`" ++ resource.Name ++ "`](#" ++ resource.Name.toLower ++ ")<br />" ++
    (if resource.Param ≠ "" then
      "&nbsp;&nbsp;reference to: `" ++ resource.Param ++ "`<br />"
    else "")

def addVaultResourceDetails (resource : ResourceReference) (resourceDetails : String) : String :=
  resourceDetails ++ "<br/>Vault resource:<br />" ++
    "&nbsp;&nbsp;name: `" ++ resource.Name ++ "`<br />" ++
    "&nbsp;&nbsp;default value: `" ++ resource.Default ++ "`<br />" ++
    "<br/>Vault paths: <br />" ++ "<ul>" ++
    String.join
      (VaultRootPaths.map (fun rootPath =>
        "<li>`" ++ goPathJoin rootPath resource.Default ++ "`</li>")) ++
    "</ul>"

def addSystemTrustResourceDetails (resource : ResourceReference) (resourceDetails : String) : String :=
  resourceDetails ++ "<br/>System Trust resource:<br />" ++
    "&nbsp;&nbsp;name: `" ++ resource.Name ++ "`<br />" ++
    "&nbsp;&nbsp;value: `" ++ resource.Default ++ "`<br />"

def resourceReferenceDetails (resourceRef : List ResourceReference) : String :=
  if resourceRef.length = 0 then "none"
  else
    resourceRef.foldl
      (fun resourceDetails resource =>
        if resource.Name = "commonPipelineEnvironment" then
          resourceDetails ++ "_commonPipelineEnvironment_:<br />" ++
            "&nbsp;&nbsp;reference to: `" ++ resource.Param ++ "`<br />"
        else if resource.Type_ = "secret" then
          resourceDetails ++ jenkinsCredentialBlock resource
        else if resource.Type_ = "vaultSecret" || resource.Type_ = "vaultSecretFile" then
          addVaultResourceDetails resource resourceDetails
        else if resource.Type_ = RefTypeSystemTrustSecret then
          addSystemTrustResourceDetails resource resourceDetails
        else resourceDetails)
      ""

/-- The details block rendered for one step parameter. -/
def parameterDetailsBlock (spn : List String) (param : StepParameters) : String :=
  "#### " ++ param.Name ++ "\n\n" ++
    (if !(contains spn param.Name) && contains jenkinsParams param.Name then
      "**Jenkins-specific:** Used for proper environment setup.\n\n"
    else "") ++
    (if 0 < param.LongDescription.length then param.LongDescription ++ "\n\n"
     else param.Description ++ "\n\n") ++
    "[back to overview](#parameters)\n\n" ++
    "| Scope | Details |\n" ++ "| ---- | --------- |\n" ++
    (if param.DeprecationMessage ≠ "" then
      "| Deprecated | " ++ param.DeprecationMessage ++ " |\n"
    else "") ++
    "| Aliases | " ++ aliasList param.Aliases ++ " |\n" ++
    "| Type | `" ++ param.Type_ ++ "` |\n" ++
    (let minfo := parameterMandatoryInformation param ("")
     let mandatoryString := if minfo.1 && 0 < minfo.2.2.length then minfo.2.2 else minfo.2.1
     "| Mandatory | " ++ ifThenElse minfo.1 mandatoryString ("no") ++ " |\n") ++
    "| Default | " ++ formatDefault param spn ++ " |\n" ++
    (match param.PossibleValues with
     | some pv => "| Possible values | " ++ possibleValueList pv ++ " |\n"
     | none => "") ++
    "| Secret | " ++ ifThenElse param.Secret ("**yes**") ("no") ++ " |\n" ++
    "| Configuration scope | " ++ scopeDetails param.Scope ++ " |\n" ++
    "| Resource references | " ++ resourceReferenceDetails param.ResourceRef ++ " |\n" ++
    "\n\n"

/-- The details block rendered for one declared secret. -/
def secretDetailsBlock (spn : List String) (secret : StepSecrets) : String :=
  "#### " ++ secret.Name ++ "\n\n" ++
    (if !(contains spn secret.Name) && contains jenkinsParams secret.Name then
      "**Jenkins-specific:** Used for proper environment setup. See *[using credentials](https://www.jenkins.io/doc/book/using/using-credentials/)* for details.\n\n"
    else "") ++
    secret.Description ++ "\n\n" ++
    "[back to overview](#parameters)\n\n" ++
    "| Scope | Details |\n" ++ "| ---- | --------- |\n" ++
    "| Aliases | " ++ aliasList secret.Aliases ++ " |\n" ++
    "| Type | `" ++ "string" ++ "` |\n" ++
    "| Configuration scope | " ++
      scopeDetails ["PARAMETERS", "GENERAL", "STEPS", "STAGES"] ++ " |\n" ++
    "\n\n"

def createParameterDetails (spn : List String) (stepData : StepData) : String :=
  String.join ((stepData.Spec.Inputs.Parameters.getD []).map (parameterDetailsBlock spn)) ++
    String.join (stepData.Spec.Inputs.Secrets.map (secretDetailsBlock spn))

/-- The note inserted above the execution-environment overview table. -/
def orchestratorNote : String :=
  "!!! note \"Orchestrator-specific only\"\n\n    These parameters are relevant for orchestrator usage and not considered when using the command line option.\n\n"

def createParametersSection (spn : List String) (stepData : StepData) : String :=
  let parameters := "## Parameters\n\n"
  let sorted1 := sortStepParameters stepData true
  let parameters := parameters ++ "### Overview - Step\n\n" ++
    createParameterOverview spn sorted1 false
  let parameters := parameters ++ "### Overview - Execution Environment\n\n" ++
    orchestratorNote ++ createParameterOverview spn sorted1 true
  let sorted2 := sortStepParameters sorted1 false
  parameters ++ "### Details\n\n" ++ createParameterDetails spn sorted2

/- ### cmd/pythonBuild_generated.go: data model -/

/-- The flag/configuration struct `pythonBuildOptions`. -/
structure pythonBuildOptions where
  BuildFlags : List String := []
  SetupFlags : List String := []
  CreateBOM : Bool := false
  Publish : Bool := false
  TargetRepositoryPassword : String := ""
  TargetRepositoryUser : String := ""
  TargetRepositoryURL : String := ""
  BuildSettingsInfo : String := ""
  VirutalEnvironmentName : String := ""
  RequirementsFilePath : String := ""
deriving DecidableEq

/-- The nested `custom` struct of the common pipeline environment. -/
structure pythonBuildCPECustom where
  buildSettingsInfo : String := ""
deriving DecidableEq

/-- The step's common pipeline environment struct. -/
structure pythonBuildCommonPipelineEnvironment where
  custom : pythonBuildCPECustom := {}
deriving DecidableEq

/-- One entry of the `content` table of `persist`. -/
structure PersistEntry where
  category : String
  name : String
  value : String

/-- The `content` table built by `persist`: category/name/value of every
resource parameter it writes. -/
def persistContent (p : pythonBuildCommonPipelineEnvironment) : List PersistEntry :=
  [{ category := "custom", name := "buildSettingsInfo", value := p.custom.buildSettingsInfo }]

/-- The key/value pairs `persist` hands to `piperenv.SetResourceParameter`:
key `filepath.Join(category, name)` with the entry's value. -/
def persistWrites (p : pythonBuildCommonPipelineEnvironment) : List (String × String) :=
  (persistContent p).map (fun e => (goFilepathJoin e.category e.name, e.value))

/-- The step metadata returned by `pythonBuildMetadata`; `env` models
`os.Getenv` (empty string when the variable is unset). -/
def pythonBuildMetadata (env : String → String) : StepData :=
  { Metadata :=
      { Name := "pythonBuild"
        Aliases := []
        Description := "Step builds a python project" }
    Spec :=
      { Inputs :=
          { Parameters := some
              [{ Name := "buildFlags"
                 ResourceRef := []
                 Scope := ["PARAMETERS", "STAGES", "STEPS"]
                 Type_ := "[]string"
                 Mandatory := false
                 Aliases := []
                 Default := some (.strList []) },
               { Name := "setupFlags"
                 ResourceRef := []
                 Scope := ["PARAMETERS", "STAGES", "STEPS"]
                 Type_ := "[]string"
                 Mandatory := false
                 Aliases := []
                 Default := some (.strList []) },
               { Name := "createBOM"
                 ResourceRef := []
                 Scope := ["GENERAL", "STEPS", "STAGES", "PARAMETERS"]
                 Type_ := "bool"
                 Mandatory := false
                 Aliases := []
                 Default := some (.boolean false) },
               { Name := "publish"
                 ResourceRef := []
                 Scope := ["STEPS", "STAGES", "PARAMETERS"]
                 Type_ := "bool"
                 Mandatory := false
                 Aliases := []
                 Default := some (.boolean false) },
               { Name := "targetRepositoryPassword"
                 ResourceRef := [{ Name := "commonPipelineEnvironment"
                                   Param := "custom/repositoryPassword" }]
                 Scope := ["PARAMETERS", "STAGES", "STEPS"]
                 Type_ := "string"
                 Mandatory := false
                 Aliases := []
                 Default := some (.str (env ("PIPER_targetRepositoryPassword"))) },
               { Name := "targetRepositoryUser"
                 ResourceRef := [{ Name := "commonPipelineEnvironment"
                                   Param := "custom/repositoryUsername" }]
                 Scope := ["PARAMETERS", "STAGES", "STEPS"]
                 Type_ := "string"
                 Mandatory := false
                 Aliases := []
                 Default := some (.str (env ("PIPER_targetRepositoryUser"))) },
               { Name := "targetRepositoryURL"
                 ResourceRef := [{ Name := "commonPipelineEnvironment"
                                   Param := "custom/repositoryUrl" }]
                 Scope := ["PARAMETERS", "STAGES", "STEPS"]
                 Type_ := "string"
                 Mandatory := false
                 Aliases := []
                 Default := some (.str (env ("PIPER_targetRepositoryURL"))) },
               { Name := "buildSettingsInfo"
                 ResourceRef := [{ Name := "commonPipelineEnvironment"
                                   Param := "custom/buildSettingsInfo" }]
                 Scope := ["STEPS", "STAGES", "PARAMETERS"]
                 Type_ := "string"
                 Mandatory := false
                 Aliases := []
                 Default := some (.str (env ("PIPER_buildSettingsInfo"))) },
               { Name := "virutalEnvironmentName"
                 ResourceRef := []
                 Scope := ["STEPS", "STAGES", "PARAMETERS"]
                 Type_ := "string"
                 Mandatory := false
                 Aliases := []
                 Default := some (.str ("piperBuild-env")) },
               { Name := "requirementsFilePath"
                 ResourceRef := []
                 Scope := ["STEPS", "STAGES", "PARAMETERS"]
                 Type_ := "string"
                 Mandatory := false
                 Aliases := []
                 Default := some (.str ("requirements.txt")) }]
            Secrets := [] }
        Containers := [{ Name := "python", Image := "python:3.9" }]
        Outputs :=
          { Resources :=
              [{ Name := "commonPipelineEnvironment"
                 Type_ := "piperEnvironment"
                 Parameters := [[("name", "custom/buildSettingsInfo")]] }] } } }

/-- One CLI flag registration of `addPythonBuildFlags`: flag name, registered
default value and help text. -/
structure FlagDef where
  name : String
  default : GoValue
  description : String

/-- The flag registrations performed by `addPythonBuildFlags`, in source
order; `env` models `os.Getenv`. -/
def addPythonBuildFlags (env : String → String) : List FlagDef :=
  [{ name := "buildFlags", default := .strList []
     description := "Defines list of build flags passed to python binary." },
   { name := "setupFlags", default := .strList []
     description := "Defines list of flags passed to setup.py." },
   { name := "createBOM", default := .boolean false
     description := "Creates the bill of materials (BOM) using CycloneDX plugin." },
   { name := "publish", default := .boolean false
     description := "Configures the build to publish artifacts to a repository." },
   { name := "targetRepositoryPassword", default := .str (env ("PIPER_targetRepositoryPassword"))
     description := "Password for the target repository where the compiled binaries shall be uploaded - typically provided by the CI/CD environment." },
   { name := "targetRepositoryUser", default := .str (env ("PIPER_targetRepositoryUser"))
     description := "Username for the target repository where the compiled binaries shall be uploaded - typically provided by the CI/CD environment." },
   { name := "targetRepositoryURL", default := .str (env ("PIPER_targetRepositoryURL"))
     description := "URL of the target repository where the compiled binaries shall be uploaded - typically provided by the CI/CD environment." },
   { name := "buildSettingsInfo", default := .str (env ("PIPER_buildSettingsInfo"))
     description := "build settings info is typically filled by the step automatically to create information about the build settings that were used during the maven build . This information is typically used for compliance related processes." },
   { name := "virutalEnvironmentName", default := .str ("piperBuild-env")
     description := "name of the virtual environment that will be used for the build" },
   { name := "requirementsFilePath", default := .str ("requirements.txt")
     description := "file path to the requirements.txt file needed for the sbom cycloneDx file creation." }]

/- ### cmd/pythonBuild_generated.go: execution model of the cobra closures -/

/-- The fields of the global `GeneralConfig` read by the `Run` and `PreRunE`
closures. -/
structure GeneralConfigModel where
  verbose : Bool := false
  sentryDsn : String := ""
  splunkDsn : String := ""
  splunkProdCriblEndpoint : String := ""
  gcpPubSubEnabled : Bool := false

/-- References the `Run` closure passes to the domain function: the addresses
of its local telemetry data and common pipeline environment variables. -/
inductive RunRef where
  | stepTelemetryDataRef
  | commonPipelineEnvironmentRef
deriving DecidableEq

/-- Observable actions of the `Run` closure, in execution order. -/
inductive RunEvent where
  | setErrorCode (code : String)
  | registerExitHandler
  | initTelemetry
  | domainCall (name : String) (cfg : pythonBuildOptions) (telemetry cpe : RunRef)
  | logSuccess
  | persistCPE
  | removeVaultSecretFiles
  | publishTelemetry
  | splunkSend
  | gcpPublish
  | revokeVaultToken
deriving DecidableEq

/-- Recognises the domain-function call events of a `Run` trace. -/
def RunEvent.isDomainCall : RunEvent → Bool
  | .domainCall _ _ _ _ => true
  | _ => false

/-- The trace of the deferred `handler` closure: persist the common pipeline
environment, remove vault secret files, publish telemetry, then the
conditional Splunk sends and GCP publish. -/
def handlerTrace (g : GeneralConfigModel) : List RunEvent :=
  [.persistCPE, .removeVaultSecretFiles, .publishTelemetry] ++
    (if 0 < g.splunkDsn.length then [.splunkSend] else []) ++
    (if 0 < g.splunkProdCriblEndpoint.length then [.splunkSend] else []) ++
    (if g.gcpPubSubEnabled then [.gcpPublish] else [])

/-- Modelled from the spec: trace of one execution of the `Run` closure.
`buildSucceeds` distinguishes `pythonBuild` returning normally from it
failing fatally; the failure path relies on the logging infrastructure
(`log.DeferExitHandler`, owned elsewhere per the spec) running the registered
`handler` on fatal exit, while deferred functions do not run then. -/
def runTrace (g : GeneralConfigModel) (stepConfig : pythonBuildOptions)
    (buildSucceeds : Bool) (hasVaultClient : Bool) : List RunEvent :=
  [.setErrorCode ("1"), .registerExitHandler, .initTelemetry,
   .domainCall ("pythonBuild") stepConfig .stepTelemetryDataRef .commonPipelineEnvironmentRef] ++
    (if buildSucceeds then
      [.setErrorCode ("0"), .logSuccess] ++ handlerTrace g ++
        (if hasVaultClient then [.revokeVaultToken] else [])
    else handlerTrace g)

/-- Go error values, modelled by their message. -/
abbrev GoError := String

/-- Observable actions of the `PreRunE` closure, in execution order. -/
inductive PreRunEvent where
  | setStartTime
  | setStepName (name : String)
  | setVerbose (v : Bool)
  | resolveAccessTokens
  | registerHook (name : String)
  | prepareConfigCall
  | setErrorCategory (category : String)
  | registerSecret (value : String)
  | warnANS
  | validationNewCall
  | validateStructCall (cfg : pythonBuildOptions)
deriving DecidableEq

/-- Oracle for the external calls made by `PreRunE`: the results of
`os.Getwd`, `PrepareConfig` (which also yields the populated step
configuration), ANS hook registration, `validation.New` and
`ValidateStruct`. -/
structure PreRunEnv where
  getwd : Except GoError String
  prepareConfig : Except GoError pythonBuildOptions
  ansRegister : Option GoError
  validationNew : Except GoError Unit
  validateStruct : pythonBuildOptions → Option GoError

/-- Trace and error result of one execution of the `PreRunE` closure. -/
def preRunE (g : GeneralConfigModel) (env : PreRunEnv) :
    List PreRunEvent × Option GoError :=
  let t0 : List PreRunEvent :=
    [.setStartTime, .setStepName ("pythonBuild"), .setVerbose g.verbose, .resolveAccessTokens]
  match env.getwd with
  | .error e => (t0, some e)
  | .ok _ =>
    let t1 := t0 ++ [.registerHook ("fatalHook"), .prepareConfigCall]
    match env.prepareConfig with
    | .error e => (t1 ++ [.setErrorCategory ("configuration")], some e)
    | .ok stepConfig =>
      let t2 := t1 ++ [.registerSecret stepConfig.TargetRepositoryPassword,
                       .registerSecret stepConfig.TargetRepositoryUser]
      let t3 := t2 ++ (if 0 < g.sentryDsn.length then [.registerHook ("sentryHook")] else [])
      let t4 := t3 ++
        (if 0 < g.splunkDsn.length || 0 < g.splunkProdCriblEndpoint.length then
          [.registerHook ("logCollectorHook")]
        else [])
      let t5 := t4 ++ (match env.ansRegister with | some _ => [.warnANS] | none => [])
      let t6 := t5 ++ [.validationNewCall]
      match env.validationNew with
      | .error e => (t6, some e)
      | .ok _ =>
        let t7 := t6 ++ [.validateStructCall stepConfig]
        match env.validateStruct stepConfig with
        | some e => (t7 ++ [.setErrorCategory ("configuration")], some e)
        | none => (t7, none)

/- ### Concrete example values used by the witness theorems -/

/-- A mandatory example parameter. -/
def exampleMandatoryParam : StepParameters :=
  { Name := "beta", Mandatory := true }

/-- A non-mandatory example parameter. -/
def examplePlainParam : StepParameters :=
  { Name := "alpha" }

/-- An example parameter that is mandatory only conditionally. -/
def exampleConditionalParam : StepParameters :=
  { Name := "gamma", MandatoryIf := [{ Name := "publish", Value := "true" }] }

/-- Step metadata with a nil parameter slice. -/
def exampleStepDataNil : StepData := {}

/-- Step metadata with two parameters. -/
def exampleStepDataSome : StepData :=
  setStepDataParameters {} (some [exampleMandatoryParam, examplePlainParam])

/-- An example populated step configuration. -/
def exampleOptions : pythonBuildOptions :=
  { TargetRepositoryPassword := "pw", TargetRepositoryUser := "user" }

/-- An example `PreRunE` oracle where every external call succeeds. -/
def examplePreRunEnvOk : PreRunEnv :=
  { getwd := .ok ("/work")
    prepareConfig := .ok exampleOptions
    ansRegister := none
    validationNew := .ok ()
    validateStruct := fun _ => none }

/-- An example `PreRunE` oracle where `PrepareConfig` fails. -/
def examplePreRunEnvErr : PreRunEnv :=
  { getwd := .ok ("/work")
    prepareConfig := .error ("config broken")
    ansRegister := none
    validationNew := .ok ()
    validateStruct := fun _ => none }

/- ### Theorems: the stable sort model -/

theorem goSliceStable_perm {α : Type} (less : α → α → Bool) (l : List α) :
    List.Perm (goSliceStable less l) l :=
  List.mergeSort_perm l _

theorem pairwise_of_forall {α : Type} {R : α → α → Prop} (h : ∀ a b, R a b) :
    ∀ l : List α, l.Pairwise R
  | [] => List.Pairwise.nil
  | a :: l => List.Pairwise.cons (fun b _ => h a b) (pairwise_of_forall h l)

theorem goSliceStable_sorted {α : Type} (less : α → α → Bool)
    (trans : ∀ a b c, (!(less b a)) = true → (!(less c b)) = true → (!(less c a)) = true)
    (total : ∀ a b, ((!(less b a)) || (!(less a b))) = true) (l : List α) :
    (goSliceStable less l).Pairwise (fun a b => (!(less b a)) = true) :=
  List.sorted_mergeSort trans total l

theorem pairwise_filter_of_forall {α : Type} (q : α → Bool) (R : α → α → Prop)
    (h : ∀ a b, q a = true → q b = true → R a b) (l : List α) :
    (l.filter q).Pairwise R := by
  induction l with
  | nil => simp
  | cons a l ih =>
    by_cases ha : q a = true
    · rw [List.filter_cons_of_pos ha]
      exact List.Pairwise.cons (fun b hb => h a b ha (List.of_mem_filter hb)) ih
    · rw [List.filter_cons_of_neg ha]
      exact ih

theorem goSliceStable_filter {α : Type} (less : α → α → Bool) (q : α → Bool)
    (trans : ∀ a b c, (!(less b a)) = true → (!(less c b)) = true → (!(less c a)) = true)
    (total : ∀ a b, ((!(less b a)) || (!(less a b))) = true)
    (hq : ∀ a b, q a = true → q b = true → (!(less b a)) = true) (l : List α) :
    (goSliceStable less l).filter q = l.filter q := by
  have hpc : (l.filter q).Pairwise (fun a b => (!(less b a)) = true) :=
    pairwise_filter_of_forall q _ hq l
  have hsub : List.Sublist (l.filter q) (goSliceStable less l) :=
    List.sublist_mergeSort trans total hpc (List.filter_sublist l)
  have hsub2 : List.Sublist (l.filter q) ((goSliceStable less l).filter q) := by
    have h2 := hsub.filter q
    rwa [List.filter_filter,
      show ((fun a => q a && q a) : α → Bool) = q from funext (fun a => Bool.and_self (q a))] at h2
  have hperm : List.Perm ((goSliceStable less l).filter q) (l.filter q) :=
    (goSliceStable_perm less l).filter q
  exact (hsub2.eq_of_length hperm.length_eq.symm).symm

/- ### Theorems: the two comparators of sortStepParameters -/

theorem leMand_iff (a b : StepParameters) :
    (!(lessByMandatoryAndName b a)) = true ↔
      (mandRank a < mandRank b ∨ (mandRank a = mandRank b ∧ a.Name ≤ b.Name)) := by
  unfold lessByMandatoryAndName mandRank isMandatoryOrConditional
  cases hA : (a.Mandatory || decide (0 < a.MandatoryIf.length)) <;>
    cases hB : (b.Mandatory || decide (0 < b.MandatoryIf.length)) <;>
      simp [hA, hB, not_lt]

theorem leName_iff (a b : StepParameters) :
    (!(lessByName b a)) = true ↔ a.Name ≤ b.Name := by
  unfold lessByName
  simp [not_lt]

theorem leMand_trans (a b c : StepParameters)
    (h1 : (!(lessByMandatoryAndName b a)) = true)
    (h2 : (!(lessByMandatoryAndName c b)) = true) :
    (!(lessByMandatoryAndName c a)) = true := by
  rw [leMand_iff] at h1 h2 ⊢
  rcases h1 with h1 | ⟨h1, h1n⟩ <;> rcases h2 with h2 | ⟨h2, h2n⟩
  · left; omega
  · left; omega
  · left; omega
  · right; exact ⟨by omega, le_trans h1n h2n⟩

theorem leMand_total (a b : StepParameters) :
    ((!(lessByMandatoryAndName b a)) || (!(lessByMandatoryAndName a b))) = true := by
  rw [Bool.or_eq_true, leMand_iff, leMand_iff]
  rcases Nat.lt_trichotomy (mandRank a) (mandRank b) with h | h | h
  · exact Or.inl (Or.inl h)
  · rcases le_total a.Name b.Name with hn | hn
    · exact Or.inl (Or.inr ⟨h, hn⟩)
    · exact Or.inr (Or.inr ⟨h.symm, hn⟩)
  · exact Or.inr (Or.inl h)

theorem leName_trans (a b c : StepParameters)
    (h1 : (!(lessByName b a)) = true) (h2 : (!(lessByName c b)) = true) :
    (!(lessByName c a)) = true := by
  rw [leName_iff] at h1 h2 ⊢
  exact le_trans h1 h2

theorem leName_total (a b : StepParameters) :
    ((!(lessByName b a)) || (!(lessByName a b))) = true := by
  rw [Bool.or_eq_true, leName_iff, leName_iff]
  exact le_total a.Name b.Name

theorem mandRank_eq_zero_iff (p : StepParameters) :
    mandRank p = 0 ↔ isMandatoryOrConditional p = true := by
  unfold mandRank
  split <;> simp_all

theorem mandRank_eq_one_iff (p : StepParameters) :
    mandRank p = 1 ↔ isMandatoryOrConditional p = false := by
  unfold mandRank
  split <;> simp_all

theorem sortStepParameters_params (s : StepData) (considerMandatory : Bool) :
    (sortStepParameters s considerMandatory).Spec.Inputs.Parameters =
      Option.map (goSortParams considerMandatory) s.Spec.Inputs.Parameters := by
  rcases s with ⟨m, ⟨⟨ps, secs⟩, conts, outs⟩⟩
  cases ps <;> rfl

theorem paramSortKey_le_mand {a b : StepParameters} {κ : Bool × String}
    (ha : paramSortKey true a = κ) (hb : paramSortKey true b = κ) :
    (!(lessByMandatoryAndName b a)) = true := by
  have hk : paramSortKey true a = paramSortKey true b := ha.trans hb.symm
  unfold paramSortKey at hk
  simp only [Bool.true_and, Prod.mk.injEq] at hk
  refine (leMand_iff a b).mpr (Or.inr ⟨?_, le_of_eq hk.2⟩)
  unfold mandRank
  rw [hk.1]

theorem paramSortKey_le_name {a b : StepParameters} {κ : Bool × String}
    (ha : paramSortKey false a = κ) (hb : paramSortKey false b = κ) :
    (!(lessByName b a)) = true := by
  have hk : paramSortKey false a = paramSortKey false b := ha.trans hb.symm
  unfold paramSortKey at hk
  simp only [Bool.false_and, Prod.mk.injEq] at hk
  exact (leName_iff a b).mpr (le_of_eq hk.2)

/-- C2: `sortStepParameters` is stable: for both values of
`considerMandatory`, the parameters of any fixed ordering key (the name, and
for `considerMandatory = true` also the mandatory status) appear in the
output in exactly their original relative order. -/
theorem sortStepParameters_stable_c2 (s : StepData) (considerMandatory : Bool)
    (κ : Bool × String) :
    ((sortStepParameters s considerMandatory).Spec.Inputs.Parameters.getD []).filter
        (fun p => decide (paramSortKey considerMandatory p = κ)) =
      ((s.Spec.Inputs.Parameters.getD []).filter
        (fun p => decide (paramSortKey considerMandatory p = κ))) := by
  rw [sortStepParameters_params]
  cases hp : s.Spec.Inputs.Parameters with
  | none => rfl
  | some l =>
    simp only [Option.map_some', Option.getD_some]
    cases considerMandatory with
    | false =>
      simp only [goSortParams, Bool.false_eq_true, if_false]
      refine goSliceStable_filter lessByName _ leName_trans leName_total ?_ l
      intro a b ha hb
      simp only [decide_eq_true_eq] at ha hb
      exact paramSortKey_le_name ha hb
    | true =>
      simp only [goSortParams, if_true]
      refine goSliceStable_filter lessByMandatoryAndName _ leMand_trans leMand_total ?_ l
      intro a b ha hb
      simp only [decide_eq_true_eq] at ha hb
      exact paramSortKey_le_mand ha hb

/-- C9: `sortStepParameters` only replaces the parameter slice by a
permutation of itself (no parameter added, dropped, duplicated or modified),
and a nil parameter slice leaves the metadata entirely unchanged. -/
theorem sortStepParameters_permutation_c9 (s : StepData) (considerMandatory : Bool) :
    (sortStepParameters s considerMandatory =
        setStepDataParameters s
          (Option.map (goSortParams considerMandatory) s.Spec.Inputs.Parameters)) ∧
      (∀ l, List.Perm (goSortParams considerMandatory l) l) ∧
      (s.Spec.Inputs.Parameters = none → sortStepParameters s considerMandatory = s) := by
  refine ⟨?_, ?_, ?_⟩
  · rcases s with ⟨m, ⟨⟨ps, secs⟩, conts, outs⟩⟩
    cases ps <;> rfl
  · intro l
    cases considerMandatory
    · simpa [goSortParams] using goSliceStable_perm lessByName l
    · simpa [goSortParams] using goSliceStable_perm lessByMandatoryAndName l
  · intro hp
    rcases s with ⟨m, ⟨⟨ps, secs⟩, conts, outs⟩⟩
    simp only [StepData.mk.injEq] at hp ⊢
    cases ps with
    | none => rfl
    | some l => exact absurd hp (by simp)

theorem leMand_mandatory_first {a b : StepParameters}
    (hab : (!(lessByMandatoryAndName b a)) = true)
    (hb : isMandatoryOrConditional b = true) : isMandatoryOrConditional a = true := by
  rw [leMand_iff] at hab
  have hb0 : mandRank b = 0 := (mandRank_eq_zero_iff b).mpr hb
  rcases hab with h | ⟨h, _⟩
  · omega
  · exact (mandRank_eq_zero_iff a).mp (by omega)

theorem leMand_name_le_of_rank_eq {a b : StepParameters}
    (hab : (!(lessByMandatoryAndName b a)) = true)
    (h : mandRank a = mandRank b) : a.Name ≤ b.Name := by
  rw [leMand_iff] at hab
  rcases hab with h1 | ⟨_, h1⟩
  · omega
  · exact h1

/-- C1: `createParametersSection` first sorts with mandatory parameters in
front (each of the two groups alphabetically ascending by name) and renders
both overview tables from that order, then re-sorts purely alphabetically and
renders the details section from the name order. -/
theorem createParametersSection_sorting_c1 (spn : List String) (s : StepData) :
    ((sortStepParameters s true).Spec.Inputs.Parameters.getD []).Pairwise
        (fun a b => isMandatoryOrConditional b = true → isMandatoryOrConditional a = true) ∧
      (((sortStepParameters s true).Spec.Inputs.Parameters.getD []).filter
          (fun p => isMandatoryOrConditional p)).Pairwise (fun a b => a.Name ≤ b.Name) ∧
      (((sortStepParameters s true).Spec.Inputs.Parameters.getD []).filter
          (fun p => !(isMandatoryOrConditional p))).Pairwise (fun a b => a.Name ≤ b.Name) ∧
      ((sortStepParameters (sortStepParameters s true) false).Spec.Inputs.Parameters.getD
          []).Pairwise (fun a b => a.Name ≤ b.Name) ∧
      createParametersSection spn s =
        "## Parameters\n\n" ++ "### Overview - Step\n\n" ++
          createParameterOverview spn (sortStepParameters s true) false ++
          "### Overview - Execution Environment\n\n" ++ orchestratorNote ++
          createParameterOverview spn (sortStepParameters s true) true ++
          "### Details\n\n" ++
          createParameterDetails spn (sortStepParameters (sortStepParameters s true) false) := by
  have hs1 :
      ((sortStepParameters s true).Spec.Inputs.Parameters.getD []).Pairwise
        (fun a b => (!(lessByMandatoryAndName b a)) = true) := by
    rw [sortStepParameters_params]
    cases s.Spec.Inputs.Parameters with
    | none => exact List.Pairwise.nil
    | some l =>
      simp only [Option.map_some', Option.getD_some, goSortParams, if_true]
      exact goSliceStable_sorted lessByMandatoryAndName leMand_trans leMand_total l
  have hs2 :
      ((sortStepParameters (sortStepParameters s true) false).Spec.Inputs.Parameters.getD
          []).Pairwise (fun a b => (!(lessByName b a)) = true) := by
    rw [sortStepParameters_params]
    cases (sortStepParameters s true).Spec.Inputs.Parameters with
    | none => exact List.Pairwise.nil
    | some l =>
      simp only [Option.map_some', Option.getD_some, goSortParams, Bool.false_eq_true, if_false]
      exact goSliceStable_sorted lessByName leName_trans leName_total l
  refine ⟨?_, ?_, ?_, ?_, rfl⟩
  · exact hs1.imp (fun hab hb => leMand_mandatory_first hab hb)
  · refine (hs1.filter _).imp_of_mem ?_
    intro a b ha hb hab
    have ha2 := (List.mem_filter.mp ha).2
    have hb2 := (List.mem_filter.mp hb).2
    refine leMand_name_le_of_rank_eq hab ?_
    rw [(mandRank_eq_zero_iff a).mpr ha2, (mandRank_eq_zero_iff b).mpr hb2]
  · refine (hs1.filter _).imp_of_mem ?_
    intro a b ha hb hab
    have ha2 := (List.mem_filter.mp ha).2
    have hb2 := (List.mem_filter.mp hb).2
    rw [Bool.not_eq_true'] at ha2 hb2
    refine leMand_name_le_of_rank_eq hab ?_
    rw [(mandRank_eq_one_iff a).mpr ha2, (mandRank_eq_one_iff b).mpr hb2]
  · exact hs2.imp (fun hab => (leName_iff _ _).mp hab)

/-- C10: a non-empty `MandatoryIf` list makes the parameter mandatory even
when `Mandatory` is false, appends the condition list to the
further-information text, and yields the mandatory string (yes) in
parentheses. -/
theorem parameterMandatoryInformation_conditional_c10 (param : StepParameters)
    (furtherInfo : String) (h : 0 < param.MandatoryIf.length) :
    (parameterMandatoryInformation param furtherInfo).1 = true ∧
      (parameterMandatoryInformation param furtherInfo).2.1 = "**(yes)**" ∧
      (parameterMandatoryInformation param furtherInfo).2.2 =
        (if 0 < furtherInfo.length then furtherInfo ++ "<br />" else furtherInfo) ++
          goStringsJoin "<br />"
            ("mandatory in case of:" :: param.MandatoryIf.map mandatoryIfCondition) := by
  have hone : 0 < ("mandatory in case of:" : String).length := by decide
  have hlen :
      0 < ((if 0 < furtherInfo.length then furtherInfo ++ "<br />" else furtherInfo) ++
        goStringsJoin "<br />"
          ("mandatory in case of:" :: param.MandatoryIf.map mandatoryIfCondition)).length := by
    rw [goStringsJoin]
    simp only [String.length_append]
    omega
  unfold parameterMandatoryInformation
  simp only [if_pos h]
  refine ⟨trivial, ?_, trivial⟩
  rw [if_pos hlen]

theorem parameterFurtherInfo_shape (spn : List String) (paramName : String)
    (stepData : StepData) :
    ∃ info sp, ∀ ee, parameterFurtherInfo spn paramName stepData ee =
      checkParameterInfo info sp ee := by
  unfold parameterFurtherInfo
  by_cases h1 : paramName = "verbose"
  · exact ⟨_, _, fun ee => by simp only [if_pos h1]; rfl⟩
  by_cases h2 : paramName = "script"
  · exact ⟨_, _, fun ee => by simp only [if_neg h1, if_pos h2]; rfl⟩
  cases h3 : contains spn paramName with
  | false =>
    cases h4 : stepData.Spec.Inputs.Secrets.any
        (fun secret => paramName == secret.Name && secret.Type_ == "jenkins") with
    | true => exact ⟨_, _, fun ee => by simp [h1, h2, h3, h4]; rfl⟩
    | false =>
      cases h5 : contains jenkinsParams paramName with
      | true => exact ⟨_, _, fun ee => by simp [h1, h2, h3, h4, h5]; rfl⟩
      | false => exact ⟨_, _, fun ee => by simp [h1, h2, h3, h4, h5]; rfl⟩
  | true =>
    cases h6 : (stepData.Spec.Inputs.Parameters.getD []).find? (fun p => paramName == p.Name) with
    | some param => exact ⟨_, _, fun ee => by simp [h1, h2, h3, h6]; rfl⟩
    | none => exact ⟨_, _, fun ee => by simp [h1, h2, h3, h6]; rfl⟩

/-- C8: `checkParameterInfo` succeeds with the unchanged further-information
text exactly when the step-parameter flag and the execution-environment flag
differ, and returns an empty string with an error exactly when they agree;
consequently every parameter name passes the overview filter for exactly one
of the two overview tables. -/
theorem checkParameterInfo_exclusive_c8 :
    (∀ (furtherInfo : String) (stepParam executionEnvironment : Bool),
        (checkParameterInfo furtherInfo stepParam executionEnvironment =
            (furtherInfo, none) ↔ stepParam ≠ executionEnvironment) ∧
        (((checkParameterInfo furtherInfo stepParam executionEnvironment).1 = "" ∧
            (checkParameterInfo furtherInfo stepParam executionEnvironment).2 ≠ none) ↔
          stepParam = executionEnvironment)) ∧
      (∀ (spn : List String) (paramName : String) (stepData : StepData),
        ((parameterFurtherInfo spn paramName stepData false).2 = none ↔
          ¬((parameterFurtherInfo spn paramName stepData true).2 = none))) := by
  constructor
  · intro info sp ee
    cases sp <;> cases ee <;> simp [checkParameterInfo]
  · intro spn paramName stepData
    obtain ⟨info, sp, hs⟩ := parameterFurtherInfo_shape spn paramName stepData
    rw [hs false, hs true]
    cases sp <;> simp [checkParameterInfo]

/-- C4: `persist` writes exactly the key custom/buildSettingsInfo with the
value of the corresponding field, matching the single output resource
parameter declared in the step metadata. -/
theorem persist_writes_c4 (p : pythonBuildCommonPipelineEnvironment) (env : String → String) :
    persistWrites p = [("custom/buildSettingsInfo", p.custom.buildSettingsInfo)] ∧
      (pythonBuildMetadata env).Spec.Outputs.Resources =
        [{ Name := "commonPipelineEnvironment", Type_ := "piperEnvironment",
           Parameters := [[("name", "custom/buildSettingsInfo")]] }] ∧
      ((pythonBuildMetadata env).Spec.Outputs.Resources.map
          (fun r => r.Parameters.map (fun m => m.lookup ("name")))) =
        [(persistWrites p).map (fun w => some w.1)] :=
  ⟨rfl, rfl, rfl⟩

/-- C5: for each of the ten step parameters, the default value registered on
the CLI flag equals the default declared in the step metadata for the
parameter of the same name (in the same order). -/
theorem pythonBuild_flag_defaults_c5 (env : String → String) :
    ((pythonBuildMetadata env).Spec.Inputs.Parameters.getD []).map
        (fun p => (p.Name, p.Default)) =
      (addPythonBuildFlags env).map (fun f => (f.name, some f.default)) :=
  rfl

theorem handlerTrace_no_domain_call (g : GeneralConfigModel) :
    (handlerTrace g).filter RunEvent.isDomainCall = [] := by
  unfold handlerTrace
  simp only [List.filter_append]
  split <;> split <;> split <;> rfl

/-- C3: every execution of the `Run` closure performs exactly one domain
function call, namely `pythonBuild` applied to the populated step
configuration and the references to the telemetry data and the common
pipeline environment; no other domain function is called. -/
theorem run_single_domain_call_c3 (g : GeneralConfigModel)
    (stepConfig : pythonBuildOptions) (buildSucceeds hasVaultClient : Bool) :
    (runTrace g stepConfig buildSucceeds hasVaultClient).filter RunEvent.isDomainCall =
      [RunEvent.domainCall ("pythonBuild") stepConfig
        RunRef.stepTelemetryDataRef RunRef.commonPipelineEnvironmentRef] := by
  unfold runTrace
  cases buildSucceeds <;> cases hasVaultClient <;>
    simp [List.filter_append, handlerTrace_no_domain_call, RunEvent.isDomainCall]

/-- C6: in every execution of `Run` the telemetry error code is set to 1
before `pythonBuild` is invoked and never set to anything else before the
call; the deferred handler actions (persisting the common pipeline
environment, removing vault secret files, publishing telemetry) occur after
the call whether or not the step succeeds, and the error code is set to 0
only after the call (and is set there when the step returns normally). -/
theorem run_telemetry_order_c6 (g : GeneralConfigModel)
    (stepConfig : pythonBuildOptions) (buildSucceeds hasVaultClient : Bool) :
    ∃ pre post,
      runTrace g stepConfig buildSucceeds hasVaultClient =
          pre ++ (RunEvent.domainCall ("pythonBuild") stepConfig
            RunRef.stepTelemetryDataRef RunRef.commonPipelineEnvironmentRef) :: post ∧
        RunEvent.setErrorCode ("1") ∈ pre ∧
        (∀ c, RunEvent.setErrorCode c ∈ pre → c = "1") ∧
        RunEvent.persistCPE ∈ post ∧
        RunEvent.removeVaultSecretFiles ∈ post ∧
        RunEvent.publishTelemetry ∈ post ∧
        (buildSucceeds = true → RunEvent.setErrorCode ("0") ∈ post) := by
  refine ⟨[RunEvent.setErrorCode ("1"), RunEvent.registerExitHandler, RunEvent.initTelemetry],
    (if buildSucceeds then
      [RunEvent.setErrorCode ("0"), RunEvent.logSuccess] ++ handlerTrace g ++
        (if hasVaultClient then [RunEvent.revokeVaultToken] else [])
    else handlerTrace g), ?_, ?_, ?_, ?_, ?_, ?_, ?_⟩
  · unfold runTrace
    rfl
  · simp
  · intro c hc
    simp only [List.mem_cons, List.not_mem_nil, or_false] at hc
    rcases hc with hc | hc | hc
    · exact (RunEvent.setErrorCode.injEq _ _).mp hc
    · exact absurd hc (by simp)
    · exact absurd hc (by simp)
  · cases buildSucceeds <;> simp [handlerTrace]
  · cases buildSucceeds <;> simp [handlerTrace]
  · cases buildSucceeds <;> simp [handlerTrace]
  · intro hb
    subst hb
    simp

/-- C7: whenever `PrepareConfig` succeeds, the target repository password and
user of the populated configuration are registered as secrets before the
struct validation runs; whenever it fails, `PreRunE` returns that error and
registers no secret. -/
theorem preRunE_secrets_c7 (g : GeneralConfigModel) (env : PreRunEnv) (path : String)
    (hw : env.getwd = Except.ok path) :
    (∀ stepConfig, env.prepareConfig = Except.ok stepConfig →
        ∃ pre post,
          (preRunE g env).1 =
              pre ++ PreRunEvent.registerSecret stepConfig.TargetRepositoryPassword ::
                PreRunEvent.registerSecret stepConfig.TargetRepositoryUser :: post ∧
            (∀ cfg, PreRunEvent.validateStructCall cfg ∉ pre)) ∧
      (∀ e, env.prepareConfig = Except.error e →
        (preRunE g env).2 = some e ∧
          (∀ v, PreRunEvent.registerSecret v ∉ (preRunE g env).1)) := by
  constructor
  · intro stepConfig hc
    have hsplit : ∃ post, (preRunE g env).1 =
        [PreRunEvent.setStartTime, PreRunEvent.setStepName ("pythonBuild"),
          PreRunEvent.setVerbose g.verbose, PreRunEvent.resolveAccessTokens,
          PreRunEvent.registerHook ("fatalHook"), PreRunEvent.prepareConfigCall] ++
          PreRunEvent.registerSecret stepConfig.TargetRepositoryPassword ::
            PreRunEvent.registerSecret stepConfig.TargetRepositoryUser :: post := by
      unfold preRunE
      rw [hw, hc]
      cases hv : env.validationNew with
      | error e => exact ⟨_, by simp; rfl⟩
      | ok u =>
        cases hvs : env.validateStruct stepConfig with
        | some e => exact ⟨_, by simp [hvs]; rfl⟩
        | none => exact ⟨_, by simp [hvs]; rfl⟩
    obtain ⟨post, hpost⟩ := hsplit
    exact ⟨_, post, hpost, fun cfg => by simp⟩
  · intro e he
    unfold preRunE
    rw [hw, he]
    constructor
    · rfl
    · intro v
      simp

/- ### Witness theorems -/

/-- Witness for C1 at a concrete metadata value. -/
theorem createParametersSection_sorting_c1_witness :
    ((sortStepParameters exampleStepDataSome true).Spec.Inputs.Parameters.getD []).Pairwise
      (fun a b => isMandatoryOrConditional b = true → isMandatoryOrConditional a = true) :=
  (createParametersSection_sorting_c1 [] exampleStepDataSome).1

/-- Witness for C6: on the successful path the error code is set to 0 after
the call. -/
theorem run_telemetry_order_c6_witness :
    RunEvent.setErrorCode ("0") ∈ runTrace {} exampleOptions true true := by
  obtain ⟨pre, post, heq, _, _, _, _, _, h0⟩ :=
    run_telemetry_order_c6 {} exampleOptions true true
  rw [heq]
  exact List.mem_append_right _ (List.mem_cons_of_mem _ (h0 rfl))

/-- Witness for C7: with a failing `PrepareConfig` the error is returned. -/
theorem preRunE_secrets_c7_witness :
    (preRunE {} examplePreRunEnvErr).2 = some ("config broken") :=
  ((preRunE_secrets_c7 {} examplePreRunEnvErr ("/work") rfl).2 ("config broken") rfl).1

/-- Witness for C8 at concrete flags. -/
theorem checkParameterInfo_exclusive_c8_witness :
    checkParameterInfo ("x") true false = ("x", none) :=
  (checkParameterInfo_exclusive_c8.1 ("x") true false).1.mpr (by decide)

/-- Witness for C9: a nil parameter slice is left unchanged. -/
theorem sortStepParameters_permutation_c9_witness :
    sortStepParameters exampleStepDataNil true = exampleStepDataNil :=
  (sortStepParameters_permutation_c9 exampleStepDataNil true).2.2 rfl

/-- Witness for C10 at a concrete conditionally-mandatory parameter. -/
theorem parameterMandatoryInformation_conditional_c10_witness :
    (parameterMandatoryInformation exampleConditionalParam ("info")).1 = true ∧
      (parameterMandatoryInformation exampleConditionalParam ("info")).2.1 = "**(yes)**" ∧
      (parameterMandatoryInformation exampleConditionalParam ("info")).2.2 =
        (if 0 < ("info" : String).length then "info" ++ "<br />" else "info") ++
          goStringsJoin "<br />"
            ("mandatory in case of:" ::
              exampleConditionalParam.MandatoryIf.map mandatoryIfCondition) :=
  parameterMandatoryInformation_conditional_c10 exampleConditionalParam ("info") (by decide)
